import Mathlib

/-!
# Verification of the Web-Scraper-Clothing aggregation core

A shallow embedding, in Lean 4, of the result-aggregation and orchestration
layer of the `Web-Scraper-Clothing` repository (`master_scraper.py`), together
with the record-construction and price-parsing routines of its retailer
adapter modules (`Dockers_scraper.py`, `amazon_scraper.py`,
`jcpenney_scraper.py`, `macys_scraper.py`, `multi_scraper.py`).

Modelling conventions:

* Python scalar values that occur in product records (strings, floats,
  booleans, `None`) are modelled by the inductive type `PyVal`; Python floats
  are modelled by `Rat` (the monetary texts involved are finite decimals).
* A Python product dictionary is modelled as an association list
  `Dict := List (String × PyVal)` in insertion order; `pyGet` models
  `dict.get(k)` (returning `None` when the key is absent) and `dictInsert`
  models `d[k] = v` / `{**d, k: v}` (overwrite in place, append when new).
* Python exceptions are modelled with `Except`: a fallible computation
  returns `Except PyExc α` and a `try/except` block is a `match` on it.
* The four scraper threads of `run_all_scrapers` write to disjoint keys of
  `self.results` and append to `self.errors`; the embedding runs the four
  thread bodies in one fixed linearization.  All properties proved below are
  insensitive to the interleaving (per-source lists, per-retailer error
  counts).
-/


/-- Python scalar values appearing in product records: `None`, booleans,
floats (modelled as `Rat`) and strings. -/
inductive PyVal where
  | none : PyVal
  | bool (b : Bool) : PyVal
  | num (q : Rat) : PyVal
  | str (s : String) : PyVal
deriving DecidableEq, Repr

/-- A Python dict with scalar values, as an association list in insertion
order (the product records built by the scrapers are flat literals). -/
abbrev Dict := List (String × PyVal)

/-- Python truthiness of a scalar: `None`, `False`, `0`, `0.0` and `""` are
falsy, everything else is truthy. -/
def truthy : PyVal → Bool
  | .none => false
  | .bool b => b
  | .num q => decide (q ≠ 0)
  | .str s => decide (s ≠ "")

/-- Model of `d.get(k)` on a Python dict: the stored value, or `None` when the key is
absent (the one-argument `dict.get` defaults to `None`). -/
def pyGet (d : Dict) (k : String) : PyVal :=
  (d.lookup k).getD .none

/-- Model of `d[k] = v` on a Python dict (also of `{**d, k: v}`): if `k` is present the
value is overwritten in place, otherwise the pair is appended at the end --
exactly Python's dict-update ordering. -/
def dictInsert (d : Dict) (k : String) (v : PyVal) : Dict :=
  if (d.lookup k).isSome then
    d.map (fun p => if p.1 = k then (k, v) else p)
  else
    d ++ [(k, v)]

/-- The `self.results` dict of `MasterScraper.__init__`: one (initially
empty) record list per configured source, plus `timestamp` and
`search_term` (initially `None`). -/
structure MasterResults where
  dockers : List Dict
  amazon : List Dict
  jcpenney : List Dict
  macys : List Dict
  timestamp : Option String
  search_term : Option String
deriving DecidableEq, Repr

/-- The mutable state of a `MasterScraper` instance: the `results` dict and
the `errors` list of `(retailer, message)` pairs.  (The `threads` attribute
carries no data relevant to the results.) -/
structure MasterScraper where
  results : MasterResults
  errors : List (String × String)
deriving DecidableEq, Repr

/-- Embedding of `MasterScraper.__init__`: all four source lists empty, `timestamp` and
`search_term` set to `None`, no errors. -/
def MasterScraper.init : MasterScraper :=
  { results := { dockers := [], amazon := [], jcpenney := [], macys := []
                 timestamp := none, search_term := none }
    errors := [] }

/-- The error message of the `TypeError` raised by the call
`scrape_product(url)` in `MasterScraper.scrape_dockers`:
`Dockers_scraper.scrape_product` is declared with no parameters, so calling
it with one positional argument raises before any scraping happens. -/
def dockersCallError : String :=
  "scrape_product() takes 0 positional arguments but 1 was given"

/-- Embedding of `MasterScraper.scrape_dockers`: the body evaluates `scrape_product(url)`,
but the imported `Dockers_scraper.scrape_product` takes no parameters, so the
call itself raises `TypeError`; the `except Exception` clause appends
`('Dockers', str(e))` to `self.errors` and the `dockers` list is untouched. -/
def scrape_dockers (s : MasterScraper) : MasterScraper :=
  { s with errors := s.errors ++ [("Dockers", dockersCallError)] }

/-- Embedding of `MasterScraper.scrape_amazon`, parameterized by the outcome of the
`search_amazon_dockers(search_term)` call: on normal return the returned
records extend `results['amazon']`; on a raised exception `('Amazon',
str(e))` is appended to `self.errors`. -/
def scrape_amazon (outcome : Except String (List Dict)) (s : MasterScraper) :
    MasterScraper :=
  match outcome with
  | .ok products => { s with results.amazon := s.results.amazon ++ products }
  | .error e => { s with errors := s.errors ++ [("Amazon", e)] }

/-- Embedding of `MasterScraper.scrape_jcpenney`, parameterized by the outcome of the
`search_jcpenney_dockers(search_term)` call. -/
def scrape_jcpenney (outcome : Except String (List Dict)) (s : MasterScraper) :
    MasterScraper :=
  match outcome with
  | .ok products => { s with results.jcpenney := s.results.jcpenney ++ products }
  | .error e => { s with errors := s.errors ++ [("JCPenney", e)] }

/-- Embedding of `MasterScraper.scrape_macys`, parameterized by the outcome of the
`search_macys_dockers(search_term)` call. -/
def scrape_macys (outcome : Except String (List Dict)) (s : MasterScraper) :
    MasterScraper :=
  match outcome with
  | .ok products => { s with results.macys := s.results.macys ++ products }
  | .error e => { s with errors := s.errors ++ [("Macy's", e)] }

/-- Embedding of `MasterScraper.run_all_scrapers`: records `search_term` and the run
timestamp in `self.results`, then runs the four scraper thread bodies and
joins them all.  The threads write disjoint `results` keys; the embedding
uses one fixed linearization (see module comment).  `_dockers_url` is the
`dockers_url` argument, which is consumed by the always-raising
`scrape_product(url)` call (see `scrape_dockers`). -/
def run_all_scrapers (s : MasterScraper) (_dockers_url search_term now : String)
    (amz jcp mcy : Except String (List Dict)) : MasterScraper :=
  let s := { s with results.search_term := some search_term
                    results.timestamp := some now }
  scrape_macys mcy (scrape_jcpenney jcp (scrape_amazon amz (scrape_dockers s)))

/-- The number of `self.errors` entries recorded for a given retailer. -/
def errCount (retailer : String) (s : MasterScraper) : Nat :=
  (s.errors.filter (fun p => p.1 == retailer)).length

/-- The `self.errors` entries recorded for a given retailer, in order. -/
def errsFor (retailer : String) (s : MasterScraper) : List (String × String) :=
  s.errors.filter (fun p => p.1 == retailer)

/-- The fixed source iteration order used by `print_summary`,
`get_lowest_price` and `get_price_comparison`:
`['dockers', 'amazon', 'jcpenney', 'macys']`. -/
def configuredSources : List String := ["dockers", "amazon", "jcpenney", "macys"]

/-- The record list stored under a source key of `self.results`. -/
def MasterResults.recsOf (r : MasterResults) : String → List Dict
  | "dockers" => r.dockers
  | "amazon" => r.amazon
  | "jcpenney" => r.jcpenney
  | "macys" => r.macys
  | _ => []

/-- A top-level value of the `self.results` dict: either a record list
(source keys) or an optional string (`timestamp`, `search_term`). -/
inductive RVal where
  | recs (l : List Dict) : RVal
  | strOrNull (s : Option String) : RVal
deriving DecidableEq, Repr

/-- The `self.results` dict viewed as a key/value list in the insertion
order fixed by `MasterScraper.__init__` (the methods only ever append to the
source lists or assign `timestamp`/`search_term`; no key is added or
removed). -/
def MasterResults.toDict (r : MasterResults) : List (String × RVal) :=
  [("dockers", .recs r.dockers), ("amazon", .recs r.amazon),
   ("jcpenney", .recs r.jcpenney), ("macys", .recs r.macys),
   ("timestamp", .strOrNull r.timestamp),
   ("search_term", .strOrNull r.search_term)]

/-- Model of `product.get('price')`. -/
def priceVal (d : Dict) : PyVal := pyGet d "price"

/-- The truthiness test `if product.get('price'):` guarding the flatten in
both `get_lowest_price` and `get_price_comparison`. -/
def hasTruthyPrice (d : Dict) : Bool := truthy (priceVal d)

/-- All records of the four source lists, in flatten order (source iteration
order `dockers, amazon, jcpenney, macys`, then within-source insertion
order), before any filtering. -/
def allRecords (r : MasterResults) : List Dict :=
  r.dockers ++ r.amazon ++ r.jcpenney ++ r.macys

/-- The `all_products` list built by `get_lowest_price`: per source, the
records with a truthy `price`, each copied with `'retailer_key': retailer`
added (`{**product, 'retailer_key': retailer}`). -/
def all_products_keyed (r : MasterResults) : List Dict :=
  (configuredSources.map (fun src =>
    ((r.recsOf src).filter hasTruthyPrice).map
      (fun d => dictInsert d "retailer_key" (.str src)))).flatten

/-- The `all_products` list built by `get_price_comparison`: the same
flatten-and-filter, without the `retailer_key` copy. -/
def all_products_plain (r : MasterResults) : List Dict :=
  (configuredSources.map (fun src => (r.recsOf src).filter hasTruthyPrice)).flatten

/-- The sort/min key `lambda x: x.get('price', float('inf'))`.  Both callers
apply it only to records that passed the `if product.get('price'):` filter,
so the key is the stored `price` value; the `float('inf')` default (missing
key) and the non-numeric branches are unreachable there, and `0` is an
arbitrary total-function placeholder for them. -/
def priceKey (d : Dict) : Rat :=
  match priceVal d with
  | .num q => q
  | _ => 0

/-- Python's `min(list, key=...)`: `None`-free model returning `none` on the
empty list; on a nonempty list it folds left keeping the current best and
replacing it only on a strictly smaller key — so the first element attaining
the minimum key wins, exactly as `min` does. -/
def pyMinBy (key : Dict → Rat) : List Dict → Option Dict
  | [] => none
  | x :: xs => some (xs.foldl (fun b a => if key a < key b then a else b) x)

/-- Embedding of `MasterScraper.get_lowest_price`: build `all_products` (truthy-price
filter, `retailer_key` added), return `min(all_products, key=...)` if the
list is nonempty, else `None`. -/
def get_lowest_price (r : MasterResults) : Option Dict :=
  pyMinBy priceKey (all_products_keyed r)

/-- Stable insertion of `x` into `l`: `x` goes in front of the first
element whose key is not smaller, so it lands before any equal-keyed
element already in `l`. -/
def insortBy (key : Dict → Rat) (x : Dict) : List Dict → List Dict
  | [] => [x]
  | y :: ys => if key y < key x then y :: insortBy key x ys else x :: y :: ys

/-- Model of `sorted(list, key=...)`: Python's Timsort is a stable sort, and a stable
sort's output is determined by the input (it is the unique key-sorted
permutation whose equal-key elements keep their input order), so it is
modelled by a stable insertion sort, folded from the right so that earlier
elements are inserted later and land in front of equal keys. -/
def pySortedBy (key : Dict → Rat) (l : List Dict) : List Dict :=
  l.foldr (insortBy key) []

/-- Embedding of `MasterScraper.get_price_comparison`: flatten-and-filter (no
`retailer_key`), then `sorted(all_products, key=lambda x: x.get('price',
float('inf')))`. -/
def get_price_comparison (r : MasterResults) : List Dict :=
  pySortedBy priceKey (all_products_plain r)

/-- A record whose `price` field is present and equal to `0.0` — a defined
price in the sense of the data model. -/
def cexZero : Dict :=
  [("retailer", .str "Amazon"), ("name", .str "zero-priced"),
   ("price", .num 0), ("original_price", .none),
   ("availability", .str "In Stock"), ("url", .str "https://a/z"),
   ("error", .none)]

/-- A record priced at `5.0`. -/
def cexFive : Dict :=
  [("retailer", .str "JCPenney"), ("name", .str "five-priced"),
   ("price", .num 5), ("original_price", .none),
   ("availability", .str "In Stock"), ("url", .str "https://j/f"),
   ("error", .none)]

/-- A populated result set holding one zero-priced record (Amazon) and one
record priced at 5 (JCPenney). -/
def cexResults : MasterResults :=
  { dockers := [], amazon := [cexZero], jcpenney := [cexFive], macys := []
    timestamp := some "T", search_term := some "q" }

/-- A record priced `30` (first in flatten order). -/
def wP30 : Dict :=
  [("retailer", .str "Amazon"), ("name", .str "w30"), ("price", .num 30),
   ("original_price", .none), ("availability", .str "In Stock"),
   ("url", .str "https://a/30"), ("error", .none)]

/-- The first record priced `10`. -/
def wP10a : Dict :=
  [("retailer", .str "Amazon"), ("name", .str "w10a"), ("price", .num 10),
   ("original_price", .none), ("availability", .str "In Stock"),
   ("url", .str "https://a/10a"), ("error", .none)]

/-- The second record priced `10`. -/
def wP10b : Dict :=
  [("retailer", .str "JCPenney"), ("name", .str "w10b"), ("price", .num 10),
   ("original_price", .none), ("availability", .str "In Stock"),
   ("url", .str "https://j/10b"), ("error", .none)]

/-- A record priced `20`. -/
def wP20 : Dict :=
  [("retailer", .str "JCPenney"), ("name", .str "w20"), ("price", .num 20),
   ("original_price", .none), ("availability", .str "In Stock"),
   ("url", .str "https://j/20"), ("error", .none)]

/-- A result set whose flatten order carries prices `[30, 10, 10, 20]` —
the stability example of the specification. -/
def wResults : MasterResults :=
  { dockers := [], amazon := [wP30, wP10a], jcpenney := [wP10b, wP20]
    macys := [], timestamp := some "T", search_term := some "q" }

/-- Python's `round` to an integer: round-half-to-even (banker's rounding)
on the rational value, computed on the numerator and denominator (`f` is the
floor, `twoRem` is twice the fractional part's numerator, compared against
the denominator to classify below/above/exactly half). -/
def roundHalfEven (q : Rat) : Int :=
  let d : Int := (q.den : Int)
  let f : Int := Int.fdiv q.num d
  let twoRem : Int := 2 * (q.num - f * d)
  if twoRem < d then f
  else if d < twoRem then f + 1
  else if f % 2 = 0 then f else f + 1

/-- Python's `round(x, 2)`: round to the nearest multiple of `1/100`,
half-to-even. -/
def pyRound2 (q : Rat) : Rat := mkRat (roundHalfEven (q * 100)) 100

/-- The `is_on_sale` field computed by `Dockers_scraper.scrape_product` and
`multi_scraper.scrape_product`:
`original_price is not None and current_price is not None and
current_price < original_price`. -/
def dockers_is_on_sale (current_price original_price : Option Rat) : Bool :=
  match original_price, current_price with
  | some o, some c => decide (c < o)
  | _, _ => false

/-- The `discount_percentage` field of the same two functions: initialized
to `None`, and overwritten with
`round(((original_price - current_price) / original_price) * 100, 2)`
only when `is_on_sale` holds.  (When `original_price = 0` and
`current_price < 0`, CPython would raise `ZeroDivisionError` inside the
enclosing `try` — the whole record is then dropped; `Rat` division is total,
so the value equation below is only asserted for a nonzero original
price.) -/
def dockers_discount_percentage (current_price original_price : Option Rat) :
    Option Rat :=
  match original_price, current_price with
  | some o, some c =>
      if c < o then some (pyRound2 ((o - c) / o * 100)) else none
  | _, _ => none

/-- The Python exceptions that can arise in the price-parsing helpers. -/
inductive PyExc where
  | valueError (msg : String) : PyExc
  | typeError (msg : String) : PyExc
deriving DecidableEq, Repr

/-- Python's `str.strip()`: remove leading and trailing whitespace. -/
def pyStrip (l : List Char) : List Char :=
  ((l.dropWhile Char.isWhitespace).reverse.dropWhile Char.isWhitespace).reverse

/-- The numeric value of a digit string (most significant first). -/
def digitsToNat (l : List Char) : Nat :=
  l.foldl (fun a c => a * 10 + (c.toNat - '0'.toNat)) 0

/-- Parse the mantissa of a Python float literal: digits, or digits '.'
digits, or '.' digits (at least one digit overall); returns the
concatenated digit value, the number of fractional digits, and the
remaining input. -/
def parseMantissa (l : List Char) : Option (Nat × Nat × List Char) :=
  let ip := l.takeWhile Char.isDigit
  let r1 := l.dropWhile Char.isDigit
  match r1 with
  | '.' :: r2 =>
      let fp := r2.takeWhile Char.isDigit
      let r3 := r2.dropWhile Char.isDigit
      if ip.isEmpty && fp.isEmpty then none
      else some (digitsToNat (ip ++ fp), fp.length, r3)
  | _ => if ip.isEmpty then none else some (digitsToNat ip, 0, r1)

/-- Parse the suffix of a Python float literal after `e`/`E`: an optional
sign and at least one digit, consuming the whole rest. -/
def parseExpPart (l : List Char) : Option Int :=
  let p : Bool × List Char := match l with
    | '+' :: r => (false, r)
    | '-' :: r => (true, r)
    | r => (false, r)
  let ds := p.2.takeWhile Char.isDigit
  let rest := p.2.dropWhile Char.isDigit
  if ds.isEmpty || !rest.isEmpty then none
  else some (if p.1 then -(digitsToNat ds : Int) else (digitsToNat ds : Int))

/-- Python's `float(str)` on finite decimal literals: strips surrounding
whitespace, then accepts `[+-] (digits [. digits] | . digits) [(e|E) [+-]
digits]` and returns the exact rational value; anything else yields `none`
(modelling `ValueError`).  Not modelled (irrelevant to monetary price
texts): the non-finite literals `inf`/`infinity`/`nan` (not representable
in `Rat`), PEP-515 digit-group underscores, and non-ASCII digits. -/
def pyFloat (s : String) : Option Rat :=
  let cs := pyStrip s.toList
  let sp : Bool × List Char := match cs with
    | '+' :: r => (false, r)
    | '-' :: r => (true, r)
    | r => (false, r)
  match parseMantissa sp.2 with
  | none => none
  | some (m, k, rest) =>
    let e? : Option Int := match rest with
      | [] => some 0
      | 'e' :: r => parseExpPart r
      | 'E' :: r => parseExpPart r
      | _ => none
    match e? with
    | none => none
    | some e =>
      let sm : Int := if sp.1 then -(m : Int) else (m : Int)
      let sc : Int := e - (k : Int)
      some (if 0 ≤ sc then mkRat (sm * 10 ^ sc.toNat) 1 else mkRat sm (10 ^ (-sc).toNat))

/-- Model of `float(s)` in the exception monad: a parse failure raises `ValueError`
(this is the only exception `float` raises on a `str` argument). -/
def pyFloatE (s : String) : Except PyExc Rat :=
  match pyFloat s with
  | some v => .ok v
  | none => .error (.valueError ("could not convert string to float: " ++ s))

/-- The inner `try: return float(x) / except ValueError: return None`
pattern shared by all the `extract_price` variants (the Dockers variant
also catches `AttributeError`, which cannot fire on a `str` argument). -/
def floatOrNone (s : String) : Except PyExc (Option Rat) :=
  match pyFloatE s with
  | .ok v => .ok (some v)
  | .error (.valueError _) => .ok none
  | .error e => .error e

/-- The cleaning step of `Dockers_scraper.extract_price` (also
`multi_scraper.py` and `scraper.py`, same code):
`price_text.strip().replace('$', '').replace(',', '')` — a single-character
`replace` pattern with empty replacement deletes every occurrence of that
character. -/
def dockersClean (s : String) : String :=
  String.mk (((pyStrip s.toList).filter (fun c => c ≠ '$')).filter (fun c => c ≠ ','))

/-- Embedding of `Dockers_scraper.extract_price` (pure view): clean, then parse. -/
def extract_price_dockers (s : String) : Option Rat :=
  pyFloat (dockersClean s)

/-- Embedding of `Dockers_scraper.extract_price` in the exception monad: the `try` body
is `float(cleaned)`; `except (ValueError, AttributeError)` returns `None`. -/
def extract_price_dockersE (s : String) : Except PyExc (Option Rat) :=
  floatOrNone (dockersClean s)

/-- Whether a character is matched by the regex class `[\d,]`. -/
def isDigitOrComma (c : Char) : Bool := c.isDigit || c == ','

/-- The greedy match of `[\d,]+\.?\d*` starting at the head of the input:
a maximal run of digits/commas, optionally followed by a dot and a maximal
run of digits.  Returns the matched group. -/
def munchGroup (l : List Char) : List Char :=
  let p1 := l.takeWhile isDigitOrComma
  let r1 := l.dropWhile isDigitOrComma
  match r1 with
  | '.' :: r2 => p1 ++ '.' :: r2.takeWhile Char.isDigit
  | _ => p1

/-- Model of `re.search(r'\$?([\d,]+\.?\d*)', s)`: scan left to right for the first
position where the pattern matches (either a `[\d,]` character, or a `$`
directly followed by one), and return capture group 1. -/
def reSearchGroup : List Char → Option (List Char)
  | [] => none
  | c :: rest =>
      if isDigitOrComma c then some (munchGroup (c :: rest))
      else if c = '$' then
        match rest with
        | d :: _ => if isDigitOrComma d then some (munchGroup rest) else reSearchGroup rest
        | [] => none
      else reSearchGroup rest

/-- The capture `match.group(1).replace(',', '')` as a string. -/
def groupNoCommas (g : List Char) : String :=
  String.mk (g.filter (fun c => c ≠ ','))

/-- Embedding of `amazon_scraper.extract_price` (pure view): `None` on falsy (empty)
input; otherwise search for the price pattern, strip commas from the
captured group and parse it; `None` when nothing matches. -/
def extract_price_amazon (s : String) : Option Rat :=
  if s = "" then none
  else match reSearchGroup s.toList with
    | some g => pyFloat (groupNoCommas g)
    | none => none

/-- Embedding of `amazon_scraper.extract_price` in the exception monad: the inner
`try: return float(...)` has `except ValueError: return None`. -/
def extract_price_amazonE (s : String) : Except PyExc (Option Rat) :=
  if s = "" then .ok none
  else match reSearchGroup s.toList with
    | some g => floatOrNone (groupNoCommas g)
    | none => .ok none

/-- Embedding of `jcpenney_scraper.extract_price` (pure view): the function body is
identical to the Amazon one (`macys_scraper.extract_price` likewise). -/
def extract_price_jcpenney (s : String) : Option Rat :=
  if s = "" then none
  else match reSearchGroup s.toList with
    | some g => pyFloat (groupNoCommas g)
    | none => none

/-- Embedding of `jcpenney_scraper.extract_price` in the exception monad. -/
def extract_price_jcpenneyE (s : String) : Except PyExc (Option Rat) :=
  if s = "" then .ok none
  else match reSearchGroup s.toList with
    | some g => floatOrNone (groupNoCommas g)
    | none => .ok none

/-- Whether `pat` starts `l` (character-exact). -/
def listStartsWith : List Char → List Char → Bool
  | _, [] => true
  | [], _ :: _ => false
  | c :: cs, p :: ps => c = p && listStartsWith cs ps

/-- Python's `pat in s` substring test on character lists. -/
def listContainsSub (pat : List Char) : List Char → Bool
  | [] => listStartsWith [] pat
  | c :: rest => listStartsWith (c :: rest) pat || listContainsSub pat rest

/-- Python's `s.startswith(pre)`. -/
def pyStartsWith (s pre : String) : Bool := listStartsWith s.toList pre.toList

/-- The availability classification shared by the three retail scrapers:
on the scoped availability element's text (lower-cased), `'in stock'` ↦
`In Stock`, `'out of stock'`/`'unavailable'` ↦ `Out of Stock`, anything
else — including no matching element (`none`) — `Check Site`. -/
def classifyAvailability (avail : Option String) : String :=
  match avail with
  | none => "Check Site"
  | some t =>
      let lt := t.toList.map Char.toLower
      if listContainsSub "in stock".toList lt then "In Stock"
      else if listContainsSub "out of stock".toList lt
          || listContainsSub "unavailable".toList lt then "Out of Stock"
      else "Check Site"

/-- Python's `x or default` for an optional string (`None` and `""` are
falsy). -/
def pyOrStr (v : Option String) (dflt : String) : String :=
  match v with
  | some s => if s = "" then dflt else s
  | none => dflt

/-- An optional float as a stored dict value. -/
def optNum : Option Rat → PyVal
  | some q => .num q
  | none => .none

/-- The outcome of one product-page fetch-and-extract, as observed by a
retail scraper: an HTTP error from `raise_for_status`, a request timeout,
any other exception, or a parsed page abstracted to what the selector
fallback chains produced (found name, price, original price, availability
text — the chains themselves are the out-of-scope extraction plumbing). -/
inductive FetchOutcome where
  | httpError (status : Nat) (msg : String) : FetchOutcome
  | timeout : FetchOutcome
  | exn (msg : String) : FetchOutcome
  | page (name : Option String) (price : Option Rat)
      (original_price : Option Rat) (avail : Option String) : FetchOutcome

/-- Embedding of `scrape_amazon_product` / `scrape_jcpenney_product` /
`scrape_macys_product` (identical structure): the `result` dict is built
first with `retailer` and `url` fixed and every other field defaulted; on a
parsed page `name` (`name or 'Unknown'`), `price`, `original_price` and
`availability` are assigned; on an exception only `error` is assigned —
`retailer` and `url` are never touched after initialization. -/
def scrape_retail_product (retailer url : String) (f : FetchOutcome) : Dict :=
  let result : Dict :=
    [("retailer", .str retailer), ("name", .none), ("price", .none),
     ("original_price", .none), ("availability", .str "Unknown"),
     ("url", .str url), ("error", .none)]
  match f with
  | .page name price original_price avail =>
      dictInsert (dictInsert (dictInsert (dictInsert result
        "name" (.str (pyOrStr name "Unknown")))
        "price" (optNum price))
        "original_price" (optNum original_price))
        "availability" (.str (classifyAvailability avail))
  | .httpError st m =>
      dictInsert result "error" (.str ("HTTP " ++ toString st ++ ": " ++ m))
  | .timeout => dictInsert result "error" (.str "Request Timeout")
  | .exn m => dictInsert result "error" (.str m)

/-- The candidate product links `search_amazon_dockers` collects from the
search page: one append per surviving search-result container, each href
made absolute when relative — a plain list, duplicates preserved. -/
def amazon_product_links (hrefs : List String) : List String :=
  hrefs.map (fun h => if pyStartsWith h "http" then h
    else "https://www.amazon.com" ++ h)

/-- The URLs `search_amazon_dockers` actually fetches detail pages for:
the first 3 collected candidate links (`product_links[:3]`); `none` models
a search-page fetch that raised (caught by the outer `except`, returning
the records accumulated so far — none). -/
def amazon_fetch_links (search : Option (List String)) : List String :=
  match search with
  | none => []
  | some hrefs => (amazon_product_links hrefs).take 3

/-- Embedding of `search_amazon_dockers`: fetch-and-scrape each of the first 3 candidate
links; `world` gives each URL's fetch outcome. -/
def search_amazon_dockers (search : Option (List String))
    (world : String → FetchOutcome) : List Dict :=
  (amazon_fetch_links search).map
    (fun l => scrape_retail_product "Amazon" l (world l))

/-- The URLs `search_jcpenney_dockers` fetches: the candidate URLs are
accumulated into a Python `set` and converted back with
`list(product_links)`; `links` is that list (its order is the set's
unspecified iteration order, its elements are the distinct candidate URLs),
and the loop takes `product_links[:3]`.  `none` models a raised search-page
fetch (caught, yielding no records). -/
def jcpenney_fetch_links (links : Option (List String)) : List String :=
  match links with
  | none => []
  | some ls => ls.take 3

/-- Embedding of `search_jcpenney_dockers`. -/
def search_jcpenney_dockers (links : Option (List String))
    (world : String → FetchOutcome) : List Dict :=
  (jcpenney_fetch_links links).map
    (fun l => scrape_retail_product "JCPenney" l (world l))

/-- The URLs `search_macys_dockers` fetches (same set-then-slice shape as
JCPenney). -/
def macys_fetch_links (links : Option (List String)) : List String :=
  match links with
  | none => []
  | some ls => ls.take 3

/-- Embedding of `search_macys_dockers`. -/
def search_macys_dockers (links : Option (List String))
    (world : String → FetchOutcome) : List Dict :=
  (macys_fetch_links links).map
    (fun l => scrape_retail_product "Macy's" l (world l))

/-- A JSON value (the abstract syntax of the output document written by
`save_results`; the textual rendering/parsing of JSON itself is the
`json` library's). -/
inductive JVal where
  | null : JVal
  | jbool (b : Bool) : JVal
  | jnum (q : Rat) : JVal
  | jstr (s : String) : JVal
  | jarr (xs : List JVal) : JVal
  | jobj (fields : List (String × JVal)) : JVal

/-- Serialize one scalar record value (`None` ↦ `null`, bool, number,
string — exactly the types occurring in the scrapers' records). -/
def encodePyVal : PyVal → JVal
  | .none => .null
  | .bool b => .jbool b
  | .num q => .jnum q
  | .str s => .jstr s

/-- Parse one scalar record value back. -/
def decodePyVal : JVal → Option PyVal
  | .null => some .none
  | .jbool b => some (.bool b)
  | .jnum q => some (.num q)
  | .jstr s => some (.str s)
  | _ => none

/-- Serialize a product record: a JSON object with the record's fields in
insertion order (Python dicts serialize in insertion order; their keys are
unique by construction). -/
def encodeRecord (d : Dict) : JVal :=
  .jobj (d.map (fun p => (p.1, encodePyVal p.2)))

/-- Parse a product record back. -/
def decodeRecord : JVal → Option Dict
  | .jobj fs => fs.mapM (fun p => (decodePyVal p.2).map (fun v => (p.1, v)))
  | _ => none

/-- Serialize a per-source record list. -/
def encodeRecList (l : List Dict) : JVal := .jarr (l.map encodeRecord)

/-- Parse a per-source record list back. -/
def decodeRecList : JVal → Option (List Dict)
  | .jarr xs => xs.mapM decodeRecord
  | _ => none

/-- Serialize `timestamp`/`search_term` (a string or `None`). -/
def encodeOptStr : Option String → JVal
  | some s => .jstr s
  | none => .null

/-- Parse `timestamp`/`search_term` back. -/
def decodeOptStr : JVal → Option (Option String)
  | .jstr s => some (some s)
  | .null => some none
  | _ => none

/-- The JSON document `save_results` writes: `json.dump(self.results, f)` —
the results dict with its six keys in insertion order (`self.errors` is not
part of the document). -/
def resultsToJson (r : MasterResults) : JVal :=
  .jobj [("dockers", encodeRecList r.dockers),
         ("amazon", encodeRecList r.amazon),
         ("jcpenney", encodeRecList r.jcpenney),
         ("macys", encodeRecList r.macys),
         ("timestamp", encodeOptStr r.timestamp),
         ("search_term", encodeOptStr r.search_term)]

/-- Parse the output document back into a results value: the six fields in
order, each with its expected shape. -/
def resultsFromJson : JVal → Option MasterResults
  | .jobj [("dockers", jd), ("amazon", ja), ("jcpenney", jj),
           ("macys", jm), ("timestamp", jt), ("search_term", jq)] =>
    match decodeRecList jd, decodeRecList ja, decodeRecList jj,
        decodeRecList jm, decodeOptStr jt, decodeOptStr jq with
    | some d, some a, some j, some m, some t, some q =>
        some { dockers := d, amazon := a, jcpenney := j, macys := m
               timestamp := t, search_term := q }
    | _, _, _, _, _, _ => none
  | _ => none

/-- **C1**: for every combination of adapter behaviours — each search
adapter either returning a record list or raising, and the Dockers call
raising its `TypeError` — `run_all_scrapers` returns normally (it is a total
function of the outcomes; every raise is caught at the task boundary).  A
raising source gets exactly one `(retailer, message)` entry in
`self.errors` and its result list stays empty; every other source's result
list contains exactly the records its adapter returned. -/
theorem claim_C1_failure_isolation (url term now : String)
    (amz jcp mcy : Except String (List Dict)) :
    let sc := run_all_scrapers MasterScraper.init url term now amz jcp mcy
    (sc.results.dockers = [] ∧ errsFor "Dockers" sc = [("Dockers", dockersCallError)]) ∧
    (∀ ps, amz = .ok ps → sc.results.amazon = ps ∧ errCount "Amazon" sc = 0) ∧
    (∀ e, amz = .error e → sc.results.amazon = [] ∧ errsFor "Amazon" sc = [("Amazon", e)]) ∧
    (∀ ps, jcp = .ok ps → sc.results.jcpenney = ps ∧ errCount "JCPenney" sc = 0) ∧
    (∀ e, jcp = .error e → sc.results.jcpenney = [] ∧ errsFor "JCPenney" sc = [("JCPenney", e)]) ∧
    (∀ ps, mcy = .ok ps → sc.results.macys = ps ∧ errCount "Macy's" sc = 0) ∧
    (∀ e, mcy = .error e → sc.results.macys = [] ∧ errsFor "Macy's" sc = [("Macy's", e)]) := by
  cases amz <;> cases jcp <;> cases mcy <;>
    simp [run_all_scrapers, scrape_dockers, scrape_amazon, scrape_jcpenney,
      scrape_macys, errsFor, errCount, MasterScraper.init, dockersCallError]

/-- Witness for C1: a concrete run where Amazon raises `"boom"`, JCPenney
returns one record and Macy's returns none; the failure is isolated and the
sibling results are intact. -/
theorem claim_C1_failure_isolation_witness :
    let sc := run_all_scrapers MasterScraper.init "u" "t" "n"
      (.error "boom") (.ok [[("price", PyVal.num 5)]]) (.ok [])
    sc.results.dockers = [] ∧
    sc.results.amazon = [] ∧ errsFor "Amazon" sc = [("Amazon", "boom")] ∧
    sc.results.jcpenney = [[("price", PyVal.num 5)]] ∧ errCount "JCPenney" sc = 0 ∧
    sc.results.macys = [] := by
  have h := claim_C1_failure_isolation "u" "t" "n"
    (.error "boom") (.ok [[("price", PyVal.num 5)]]) (.ok [])
  exact ⟨h.1.1, (h.2.2.1 "boom" rfl).1, (h.2.2.1 "boom" rfl).2,
    (h.2.2.2.1 _ rfl).1, (h.2.2.2.1 _ rfl).2, (h.2.2.2.2.2.1 _ rfl).1⟩

/-- **C4**: after any run over the configured sources, the results mapping
has a key for every configured source, each bound to a (possibly empty)
record list — no source key is ever absent, whatever the adapters did. -/
theorem claim_C4_source_keys_present (url term now : String)
    (amz jcp mcy : Except String (List Dict)) (k : String)
    (hk : k ∈ configuredSources) :
    ∃ l, ((run_all_scrapers MasterScraper.init url term now amz jcp mcy).results.toDict.lookup k)
      = some (RVal.recs l) := by
  simp only [configuredSources, List.mem_cons, List.not_mem_nil, or_false] at hk
  rcases hk with rfl | rfl | rfl | rfl <;> exact ⟨_, rfl⟩

/-- Witness for C4: the `"amazon"` key is present after a concrete run with
all three search adapters raising. -/
theorem claim_C4_source_keys_present_witness :
    ∃ l, ((run_all_scrapers MasterScraper.init "u" "t" "n"
        (.error "a") (.error "b") (.error "c")).results.toDict.lookup "amazon")
      = some (RVal.recs l) :=
  claim_C4_source_keys_present "u" "t" "n" (.error "a") (.error "b") (.error "c")
    "amazon" (by simp [configuredSources])

/-- Replacing the value stored under key `k` does not change lookups of a
different key. -/
theorem lookup_map_replace (d : Dict) (k k' : String) (v : PyVal) (h : k' ≠ k) :
    (d.map (fun p => if p.1 = k then (k, v) else p)).lookup k' = d.lookup k' := by
  induction d with
  | nil => rfl
  | cons p t ih =>
    obtain ⟨a, b⟩ := p
    by_cases hak : a = k
    · subst hak
      simp [List.lookup_cons, beq_false_of_ne h, ih]
    · by_cases hka : k' = a
      · subst hka
        simp [List.lookup_cons, hak]
      · simp [List.lookup_cons, hak, beq_false_of_ne hka, ih]

/-- Appending a binding for key `k` does not change lookups of a different
key. -/
theorem lookup_append_single (d : Dict) (k k' : String) (v : PyVal) (h : k' ≠ k) :
    (d ++ [(k, v)]).lookup k' = d.lookup k' := by
  induction d with
  | nil => simp [List.lookup_cons, beq_false_of_ne h]
  | cons p t ih =>
    obtain ⟨a, b⟩ := p
    by_cases hka : k' = a
    · subst hka
      simp [List.lookup_cons]
    · simp [List.lookup_cons, beq_false_of_ne hka, ih]

/-- Updating as `{**d, k: v}` leaves every other key's value unchanged. -/
theorem pyGet_dictInsert_of_ne (d : Dict) (k k' : String) (v : PyVal)
    (h : k' ≠ k) : pyGet (dictInsert d k v) k' = pyGet d k' := by
  unfold pyGet dictInsert
  split
  · rw [lookup_map_replace d k k' v h]
  · rw [lookup_append_single d k k' v h]

/-- Specification of the left fold inside `pyMinBy`: the fold over `x :: xs`
returns an element of the list whose key is minimal, and it is the first
element of the list attaining that minimal key. -/
theorem foldlMin_spec (key : Dict → Rat) (xs : List Dict) : ∀ x : Dict,
    (xs.foldl (fun b a => if key a < key b then a else b) x) ∈ x :: xs ∧
    (∀ a ∈ x :: xs, key (xs.foldl (fun b a => if key a < key b then a else b) x) ≤ key a) ∧
    (x :: xs).find?
        (fun a => decide (key a = key (xs.foldl (fun b a => if key a < key b then a else b) x)))
      = some (xs.foldl (fun b a => if key a < key b then a else b) x) := by
  induction xs with
  | nil =>
    intro x
    refine ⟨by simp, by simp, ?_⟩
    simp [List.find?]
  | cons y ys ih =>
    intro x
    simp only [List.foldl_cons]
    by_cases hyx : key y < key x
    · simp only [if_pos hyx]
      obtain ⟨hmem, hmin, hfind⟩ := ih y
      have hmy : key (ys.foldl (fun b a => if key a < key b then a else b) y) ≤ key y :=
        hmin y (List.mem_cons_self _ _)
      have hmx : key (ys.foldl (fun b a => if key a < key b then a else b) y) < key x :=
        lt_of_le_of_lt hmy hyx
      refine ⟨List.mem_cons_of_mem x hmem, ?_, ?_⟩
      · intro a ha
        rcases List.mem_cons.mp ha with rfl | ha'
        · exact le_of_lt hmx
        · exact hmin a ha'
      · rw [List.find?_cons_of_neg _ (by simpa using ne_of_gt hmx)]
        exact hfind
    · simp only [if_neg hyx]
      have hxy : key x ≤ key y := le_of_not_lt hyx
      obtain ⟨hmem, hmin, hfind⟩ := ih x
      have hmx : key (ys.foldl (fun b a => if key a < key b then a else b) x) ≤ key x :=
        hmin x (List.mem_cons_self _ _)
      refine ⟨?_, ?_, ?_⟩
      · rcases List.mem_cons.mp hmem with h | h
        · rw [h]; exact List.mem_cons_self _ _
        · exact List.mem_cons_of_mem x (List.mem_cons_of_mem y h)
      · intro a ha
        rcases List.mem_cons.mp ha with rfl | ha'
        · exact hmin a (List.mem_cons_self _ _)
        · rcases List.mem_cons.mp ha' with rfl | ha''
          · exact le_trans hmx hxy
          · exact hmin a (List.mem_cons_of_mem x ha'')
      · by_cases hpx : key x = key (ys.foldl (fun b a => if key a < key b then a else b) x)
        · rw [List.find?_cons_of_pos _ (by simpa using hpx)] at hfind ⊢
          exact hfind
        · rw [List.find?_cons_of_neg _ (by simpa using hpx)] at hfind
          have hpy : ¬ key y = key (ys.foldl (fun b a => if key a < key b then a else b) x) := by
            intro hEq
            exact hpx (le_antisymm (hEq ▸ hxy) hmx)
          rw [List.find?_cons_of_neg _ (by simpa using hpx),
            List.find?_cons_of_neg _ (by simpa using hpy)]
          exact hfind

/-- What `min(all_products, key=...)` returns: a member of the list whose
key is minimal, and the first member attaining the minimal key (Python's
`min` only replaces the current best on a strictly smaller key). -/
theorem pyMinBy_spec (key : Dict → Rat) (l : List Dict) (m : Dict)
    (hm : pyMinBy key l = some m) :
    m ∈ l ∧ (∀ a ∈ l, key m ≤ key a) ∧
    l.find? (fun a => decide (key a = key m)) = some m := by
  cases l with
  | nil => cases hm
  | cons x xs =>
    have hm' : xs.foldl (fun b a => if key a < key b then a else b) x = m := by
      simpa [pyMinBy] using hm
    obtain ⟨h1, h2, h3⟩ := foldlMin_spec key xs x
    rw [hm'] at h1 h2 h3
    exact ⟨h1, h2, h3⟩

/-- The list `all_products_keyed` written out over the four sources. -/
theorem all_products_keyed_eq (r : MasterResults) :
    all_products_keyed r =
      (r.dockers.filter hasTruthyPrice).map
          (fun d => dictInsert d "retailer_key" (.str "dockers")) ++
      ((r.amazon.filter hasTruthyPrice).map
          (fun d => dictInsert d "retailer_key" (.str "amazon")) ++
      ((r.jcpenney.filter hasTruthyPrice).map
          (fun d => dictInsert d "retailer_key" (.str "jcpenney")) ++
      (r.macys.filter hasTruthyPrice).map
          (fun d => dictInsert d "retailer_key" (.str "macys")))) := by
  simp [all_products_keyed, configuredSources, MasterResults.recsOf]

/-- The list `all_products_plain` written out over the four sources. -/
theorem all_products_plain_eq (r : MasterResults) :
    all_products_plain r =
      r.dockers.filter hasTruthyPrice ++
      (r.amazon.filter hasTruthyPrice ++
      (r.jcpenney.filter hasTruthyPrice ++
      r.macys.filter hasTruthyPrice)) := by
  simp [all_products_plain, configuredSources, MasterResults.recsOf]

/-- Adding `retailer_key` does not change the `price` entry. -/
theorem priceVal_dictInsert_retailer_key (d : Dict) (v : PyVal) :
    priceVal (dictInsert d "retailer_key" v) = priceVal d :=
  pyGet_dictInsert_of_ne d "retailer_key" "price" v (by decide)

/-- Every element of `get_lowest_price`'s `all_products` list comes from one
of the source lists, passed the truthy-price filter, and kept its `price`
value through the `retailer_key` copy. -/
theorem mem_all_products_keyed {r : MasterResults} {d : Dict}
    (hd : d ∈ all_products_keyed r) :
    truthy (priceVal d) = true ∧ ∃ d0 ∈ allRecords r, priceVal d = priceVal d0 := by
  rw [all_products_keyed_eq] at hd
  simp only [List.mem_append, List.mem_map, List.mem_filter] at hd
  rcases hd with ⟨d0, ⟨h0, h1⟩, rfl⟩ | ⟨d0, ⟨h0, h1⟩, rfl⟩ |
    ⟨d0, ⟨h0, h1⟩, rfl⟩ | ⟨d0, ⟨h0, h1⟩, rfl⟩ <;>
    exact ⟨by rw [priceVal_dictInsert_retailer_key]; exact h1, d0,
      by simp [allRecords, h0], priceVal_dictInsert_retailer_key d0 _⟩

/-- Every element of `get_price_comparison`'s `all_products` list is a
source record with a truthy `price`. -/
theorem mem_all_products_plain {r : MasterResults} {d : Dict}
    (hd : d ∈ all_products_plain r) :
    d ∈ allRecords r ∧ truthy (priceVal d) = true := by
  rw [all_products_plain_eq] at hd
  simp only [List.mem_append, List.mem_filter] at hd
  rcases hd with ⟨h0, h1⟩ | ⟨h0, h1⟩ | ⟨h0, h1⟩ | ⟨h0, h1⟩ <;>
    exact ⟨by simp [allRecords, h0], h1⟩

/-- Inserting with `insortBy` is a permutation of consing. -/
theorem insortBy_perm (key : Dict → Rat) (x : Dict) (l : List Dict) :
    List.Perm (insortBy key x l) (x :: l) := by
  induction l with
  | nil => exact List.Perm.refl _
  | cons y ys ih =>
    simp only [insortBy]
    split
    · exact (ih.cons y).trans (List.Perm.swap x y ys)
    · exact List.Perm.refl _

/-- Membership in an `insortBy` result. -/
theorem mem_insortBy {key : Dict → Rat} {x z : Dict} {l : List Dict} :
    z ∈ insortBy key x l ↔ z = x ∨ z ∈ l := by
  rw [(insortBy_perm key x l).mem_iff, List.mem_cons]

/-- Insertion via `insortBy` preserves sortedness by the key. -/
theorem insortBy_pairwise (key : Dict → Rat) (x : Dict) {l : List Dict}
    (h : l.Pairwise (fun a b => key a ≤ key b)) :
    (insortBy key x l).Pairwise (fun a b => key a ≤ key b) := by
  induction l with
  | nil => simp [insortBy]
  | cons y ys ih =>
    simp only [insortBy]
    obtain ⟨hy, hys⟩ := List.pairwise_cons.mp h
    split
    · next hlt =>
      refine List.pairwise_cons.mpr ⟨?_, ih hys⟩
      intro z hz
      rcases mem_insortBy.mp hz with rfl | hz'
      · exact le_of_lt hlt
      · exact hy z hz'
    · next hnlt =>
      refine List.pairwise_cons.mpr ⟨?_, h⟩
      intro z hz
      rcases List.mem_cons.mp hz with rfl | hz'
      · exact le_of_not_lt hnlt
      · exact le_trans (le_of_not_lt hnlt) (hy z hz')

/-- Stability of `insortBy`, phrased through equal-key filters: restricted
to the records of any one key value, inserting is just consing. -/
theorem insortBy_filter (key : Dict → Rat) (x : Dict) (l : List Dict) (q : Rat) :
    (insortBy key x l).filter (fun d => decide (key d = q))
      = ((x :: l).filter (fun d => decide (key d = q))) := by
  induction l with
  | nil => rfl
  | cons y ys ih =>
    simp only [insortBy]
    split
    · next hlt =>
      by_cases hx : key x = q
      · have hy : ¬ (key y = q) := fun hyq =>
          absurd hlt (by rw [hyq, hx]; exact lt_irrefl q)
        simp [List.filter_cons, ih, hx, hy]
      · simp [List.filter_cons, ih, hx]
    · rfl

/-- The Python sort is a permutation of its input. -/
theorem pySortedBy_perm (key : Dict → Rat) (l : List Dict) :
    List.Perm (pySortedBy key l) l := by
  induction l with
  | nil => exact List.Perm.refl _
  | cons x xs ih =>
    exact (insortBy_perm key x (pySortedBy key xs)).trans (ih.cons x)

/-- The Python sort is sorted (ascending in the key). -/
theorem pySortedBy_pairwise (key : Dict → Rat) (l : List Dict) :
    (pySortedBy key l).Pairwise (fun a b => key a ≤ key b) := by
  induction l with
  | nil => simp [pySortedBy]
  | cons x xs ih => exact insortBy_pairwise key x ih

/-- Stability of the Python sort: for every key value `q`, the subsequence
of records whose key equals `q` is exactly the same, in the same order, as
in the input. -/
theorem pySortedBy_filter (key : Dict → Rat) (l : List Dict) (q : Rat) :
    (pySortedBy key l).filter (fun d => decide (key d = q))
      = l.filter (fun d => decide (key d = q)) := by
  induction l with
  | nil => rfl
  | cons x xs ih =>
    show (insortBy key x (pySortedBy key xs)).filter _ = _
    rw [insortBy_filter]
    simp [List.filter_cons, ih]

/-- Counterexample to **C2** as stated: in `cexResults` the record
`cexZero` has a defined price `0.0`, which is the global minimum among
records with a defined price, yet `get_lowest_price` skips it (the
truthiness filter `if product.get('price'):` drops a zero price) and
returns the record priced `5.0` instead. -/
theorem claim_C2_lowest_price_cex :
    get_lowest_price cexResults
      = some (dictInsert cexFive "retailer_key" (PyVal.str "jcpenney")) ∧
    priceVal (dictInsert cexFive "retailer_key" (PyVal.str "jcpenney"))
      = PyVal.num 5 ∧
    cexZero ∈ allRecords cexResults ∧
    priceVal cexZero = PyVal.num 0 ∧
    (0 : Rat) < 5 := by
  refine ⟨by decide, by decide, by decide, by decide, by norm_num⟩

/-- **C2** (amended): `get_lowest_price` flattens all per-source record
lists and keeps only records whose `price` is defined *and truthy* (a price
of `0`/`0.0` is dropped exactly like an absent one — see the
counterexample); over a well-formed result set (truthy prices are numeric)
it returns `None` when no record survives the filter, and otherwise a
surviving record whose price is numeric and minimal among the survivors,
the first such record in flatten order (source order `dockers, amazon,
jcpenney, macys`, then insertion order) on ties. -/
theorem claim_C2_lowest_price_amended (r : MasterResults)
    (hwf : ∀ d ∈ allRecords r, truthy (priceVal d) = true →
      ∃ q, priceVal d = PyVal.num q) :
    (all_products_keyed r = [] → get_lowest_price r = none) ∧
    (all_products_keyed r ≠ [] → ∃ m, get_lowest_price r = some m) ∧
    (∀ m, get_lowest_price r = some m →
      m ∈ all_products_keyed r ∧
      priceVal m = PyVal.num (priceKey m) ∧
      (∀ d ∈ all_products_keyed r, priceKey m ≤ priceKey d) ∧
      (all_products_keyed r).find? (fun d => decide (priceKey d = priceKey m))
        = some m) := by
  refine ⟨?_, ?_, ?_⟩
  · intro h
    simp [get_lowest_price, h, pyMinBy]
  · intro h
    rcases hl : all_products_keyed r with _ | ⟨x, xs⟩
    · exact absurd hl h
    · refine ⟨xs.foldl (fun b a => if priceKey a < priceKey b then a else b) x, ?_⟩
      simp [get_lowest_price, hl, pyMinBy]
  · intro m hm
    obtain ⟨h1, h2, h3⟩ := pyMinBy_spec priceKey (all_products_keyed r) m hm
    refine ⟨h1, ?_, h2, h3⟩
    obtain ⟨ht, d0, hd0, hpv⟩ := mem_all_products_keyed h1
    obtain ⟨q, hq⟩ := hwf d0 hd0 (by rwa [hpv] at ht)
    have hm' : priceVal m = PyVal.num q := hpv.trans hq
    have hkey : priceKey m = q := by simp [priceKey, hm']
    rw [hm', hkey]

/-- Witness for the amended C2 at the concrete result set `cexResults`:
the returned record is a member of the filtered flatten with minimal key,
and it is the first record attaining that key. -/
theorem claim_C2_lowest_price_amended_witness :
    dictInsert cexFive "retailer_key" (PyVal.str "jcpenney")
        ∈ all_products_keyed cexResults ∧
    priceVal (dictInsert cexFive "retailer_key" (PyVal.str "jcpenney"))
      = PyVal.num (priceKey (dictInsert cexFive "retailer_key" (PyVal.str "jcpenney"))) := by
  have h := (claim_C2_lowest_price_amended cexResults (by
    intro d hd _
    have hd' : d = cexZero ∨ d = cexFive := by
      simpa [allRecords, cexResults] using hd
    rcases hd' with rfl | rfl
    · exact ⟨0, by decide⟩
    · exact ⟨5, by decide⟩)).2.2
    (dictInsert cexFive "retailer_key" (PyVal.str "jcpenney")) (by decide)
  exact ⟨h.1, h.2.1⟩

/-- **C10** (implicit behaviour): a record whose `price` field is present
but `0`/falsy is excluded by both `get_lowest_price` and
`get_price_comparison` exactly as if the price were absent: the truthiness
filter rejects it, the returned lowest-price record never has price `0`,
and no record of the comparison list has price `0`. -/
theorem claim_C10_zero_price_excluded (r : MasterResults) :
    (∀ d : Dict, priceVal d = PyVal.num 0 → hasTruthyPrice d = false) ∧
    (∀ m, get_lowest_price r = some m → priceVal m ≠ PyVal.num 0) ∧
    (∀ d ∈ get_price_comparison r, priceVal d ≠ PyVal.num 0) := by
  refine ⟨?_, ?_, ?_⟩
  · intro d h
    show truthy (priceVal d) = false
    rw [h]; decide
  · intro m hm hzero
    obtain ⟨h1, -, -⟩ := pyMinBy_spec priceKey (all_products_keyed r) m hm
    obtain ⟨ht, -⟩ := mem_all_products_keyed h1
    rw [hzero] at ht
    simp [truthy] at ht
  · intro d hd hzero
    have hd' : d ∈ all_products_plain r :=
      (pySortedBy_perm priceKey (all_products_plain r)).mem_iff.mp hd
    obtain ⟨-, ht⟩ := mem_all_products_plain hd'
    rw [hzero] at ht
    simp [truthy] at ht

/-- Witness for C10: in the concrete result set `cexResults` (which holds a
zero-priced record) the lowest-price record has a nonzero price. -/
theorem claim_C10_zero_price_excluded_witness :
    priceVal (dictInsert cexFive "retailer_key" (PyVal.str "jcpenney"))
      ≠ PyVal.num 0 :=
  (claim_C10_zero_price_excluded cexResults).2.1
    (dictInsert cexFive "retailer_key" (PyVal.str "jcpenney")) (by decide)

/-- **C3**: `get_price_comparison` returns the flattened-and-price-filtered
records as a permutation sorted ascending by the price key, and the sort is
stable: for every price value, the subsequence of records carrying that
price is identical (same records, same order) to the one in the flatten
order; over a well-formed result set every returned record's `price` is the
numeric value the sort ordered it by. -/
theorem claim_C3_price_comparison_sorted_stable (r : MasterResults)
    (hwf : ∀ d ∈ allRecords r, truthy (priceVal d) = true →
      ∃ q, priceVal d = PyVal.num q) :
    List.Perm (get_price_comparison r) (all_products_plain r) ∧
    (get_price_comparison r).Pairwise (fun a b => priceKey a ≤ priceKey b) ∧
    (∀ q : Rat, (get_price_comparison r).filter (fun d => decide (priceKey d = q))
        = (all_products_plain r).filter (fun d => decide (priceKey d = q))) ∧
    (∀ d ∈ get_price_comparison r, priceVal d = PyVal.num (priceKey d)) := by
  refine ⟨pySortedBy_perm _ _, pySortedBy_pairwise _ _,
    fun q => pySortedBy_filter _ _ q, ?_⟩
  intro d hd
  have hd' : d ∈ all_products_plain r :=
    (pySortedBy_perm priceKey (all_products_plain r)).mem_iff.mp hd
  obtain ⟨hmem, ht⟩ := mem_all_products_plain hd'
  obtain ⟨q, hq⟩ := hwf d hmem ht
  have hkey : priceKey d = q := by simp [priceKey, hq]
  rw [hq, hkey]

/-- Witness for C3 on the spec's stability example: input prices
`[30, 10, 10, 20]` in flatten order come out as `[10(first), 10(second),
20, 30]`, and the equal-price subsequence at price `10` is preserved. -/
theorem claim_C3_price_comparison_sorted_stable_witness :
    get_price_comparison wResults = [wP10a, wP10b, wP20, wP30] ∧
    List.Perm (get_price_comparison wResults) (all_products_plain wResults) ∧
    (get_price_comparison wResults).filter (fun d => decide (priceKey d = 10))
      = (all_products_plain wResults).filter (fun d => decide (priceKey d = 10)) := by
  have h := claim_C3_price_comparison_sorted_stable wResults (by
    intro d hd _
    have hd' : d = wP30 ∨ d = wP10a ∨ d = wP10b ∨ d = wP20 := by
      simpa [allRecords, wResults] using hd
    rcases hd' with rfl | rfl | rfl | rfl
    · exact ⟨30, by decide⟩
    · exact ⟨10, by decide⟩
    · exact ⟨10, by decide⟩
    · exact ⟨20, by decide⟩)
  exact ⟨by decide, h.1, h.2.2.1 10⟩

/-- **C6**: the discount percentage is defined exactly when both the
current and the original price are present and the original is strictly
greater; its value is `(original - current) / original * 100` rounded to 2
decimal digits; in every other case (missing field, equal prices, or
current ≥ original) it is absent — not zero and not negative. -/
theorem claim_C6_discount_percentage (cp op : Option Rat) :
    (∀ c o, cp = some c → op = some o → o ≠ 0 →
      dockers_discount_percentage cp op
        = if c < o then some (pyRound2 ((o - c) / o * 100)) else none) ∧
    (cp = none → dockers_discount_percentage cp op = none) ∧
    (op = none → dockers_discount_percentage cp op = none) ∧
    (∀ c o, cp = some c → op = some o → ¬ c < o →
      dockers_discount_percentage cp op = none) ∧
    (dockers_is_on_sale cp op = true ↔
      ∃ c o, cp = some c ∧ op = some o ∧ c < o) ∧
    ((dockers_discount_percentage cp op).isSome = true ↔
      dockers_is_on_sale cp op = true) := by
  refine ⟨?_, ?_, ?_, ?_, ?_, ?_⟩
  · rintro c o rfl rfl -
    rfl
  · rintro rfl
    cases op <;> rfl
  · rintro rfl
    rfl
  · rintro c o rfl rfl h
    simp [dockers_discount_percentage, if_neg h]
  · constructor
    · intro h
      match cp, op with
      | some c, some o =>
        refine ⟨c, o, rfl, rfl, ?_⟩
        simpa [dockers_is_on_sale] using h
      | none, none => simp [dockers_is_on_sale] at h
      | none, some o => simp [dockers_is_on_sale] at h
      | some c, none => simp [dockers_is_on_sale] at h
    · rintro ⟨c, o, rfl, rfl, h⟩
      simpa [dockers_is_on_sale] using h
  · match cp, op with
    | some c, some o =>
      by_cases h : c < o <;> simp [dockers_discount_percentage, dockers_is_on_sale, h]
    | none, none => simp [dockers_discount_percentage, dockers_is_on_sale]
    | none, some o => simp [dockers_discount_percentage, dockers_is_on_sale]
    | some c, none => simp [dockers_discount_percentage, dockers_is_on_sale]

unseal Rat.mul Rat.inv Rat.sub Rat.add in
/-- Witness for C6 at the spec's examples: current 40 / original 50 gives
20.00; current 50 / original 40 gives absent. -/
theorem claim_C6_discount_percentage_witness :
    dockers_discount_percentage (some 40) (some 50) = some 20 ∧
    dockers_discount_percentage (some 50) (some 40) = none := by
  constructor
  · rw [(claim_C6_discount_percentage (some 40) (some 50)).1 40 50 rfl rfl
      (by norm_num)]
    decide
  · exact (claim_C6_discount_percentage (some 50) (some 40)).2.2.2.1 50 40 rfl rfl
      (by norm_num)

/-- The helper `floatOrNone` never propagates an exception: the only exception the
`try` body raises is the `ValueError` of `float`, and it is caught. -/
theorem floatOrNone_ok (s : String) : floatOrNone s = .ok (pyFloat s) := by
  unfold floatOrNone pyFloatE
  cases pyFloat s <;> simp

/-- Sanity checks of the parser model on representative price texts. -/
theorem extract_price_model_examples :
    extract_price_dockers "$49.99" = some (mkRat 4999 100) ∧
    extract_price_dockers " $1,299.50 " = some (mkRat 129950 100) ∧
    extract_price_dockers "N/A" = none ∧
    extract_price_dockers "1e3" = some 1000 ∧
    extract_price_amazon "$1,299.99" = some (mkRat 129999 100) ∧
    extract_price_amazon "from $25" = some 25 ∧
    extract_price_amazon "," = none ∧
    extract_price_amazon "" = none ∧
    extract_price_amazon "no digits here" = none := by
  decide

/-- **C7**: for every input string the three `extract_price` variants are
total — evaluated in the exception monad they always return normally (every
exception the body can raise is caught), and the returned value is the
strip-clean-parse composition (a parsed float or `None`), exactly as the
pure definitions state. -/
theorem claim_C7_extract_price_total (s : String) :
    extract_price_dockersE s = .ok (extract_price_dockers s) ∧
    extract_price_amazonE s = .ok (extract_price_amazon s) ∧
    extract_price_jcpenneyE s = .ok (extract_price_jcpenney s) ∧
    extract_price_dockers s = pyFloat (dockersClean s) ∧
    extract_price_amazon s
      = (if s = "" then none
         else (reSearchGroup s.toList).bind (fun g => pyFloat (groupNoCommas g))) ∧
    extract_price_jcpenney s
      = (if s = "" then none
         else (reSearchGroup s.toList).bind (fun g => pyFloat (groupNoCommas g))) := by
  refine ⟨floatOrNone_ok _, ?_, ?_, rfl, ?_, ?_⟩
  · unfold extract_price_amazonE extract_price_amazon
    by_cases h : s = ""
    · simp [h]
    · simp only [if_neg h]
      cases reSearchGroup s.toList with
      | none => rfl
      | some g => exact floatOrNone_ok (groupNoCommas g)
  · unfold extract_price_jcpenneyE extract_price_jcpenney
    by_cases h : s = ""
    · simp [h]
    · simp only [if_neg h]
      cases reSearchGroup s.toList with
      | none => rfl
      | some g => exact floatOrNone_ok (groupNoCommas g)
  · unfold extract_price_amazon
    by_cases h : s = ""
    · simp [h]
    · simp only [if_neg h]
      cases reSearchGroup s.toList with
      | none => rfl
      | some g => rfl
  · unfold extract_price_jcpenney
    by_cases h : s = ""
    · simp [h]
    · simp only [if_neg h]
      cases reSearchGroup s.toList with
      | none => rfl
      | some g => rfl

/-- Whatever the fetch outcome, a retail scraper's record keeps the
`retailer` it was initialized with. -/
theorem scrape_retail_product_retailer (r u : String) (f : FetchOutcome) :
    pyGet (scrape_retail_product r u f) "retailer" = PyVal.str r := by
  cases f with
  | page n p o a =>
      show pyGet (dictInsert (dictInsert (dictInsert (dictInsert _ _ _) _ _) _ _) _ _) "retailer" = _
      rw [pyGet_dictInsert_of_ne _ _ _ _ (by decide),
        pyGet_dictInsert_of_ne _ _ _ _ (by decide),
        pyGet_dictInsert_of_ne _ _ _ _ (by decide),
        pyGet_dictInsert_of_ne _ _ _ _ (by decide)]
      rfl
  | httpError st m =>
      show pyGet (dictInsert _ _ _) "retailer" = _
      rw [pyGet_dictInsert_of_ne _ _ _ _ (by decide)]; rfl
  | timeout =>
      show pyGet (dictInsert _ _ _) "retailer" = _
      rw [pyGet_dictInsert_of_ne _ _ _ _ (by decide)]; rfl
  | exn m =>
      show pyGet (dictInsert _ _ _) "retailer" = _
      rw [pyGet_dictInsert_of_ne _ _ _ _ (by decide)]; rfl

/-- Whatever the fetch outcome, a retail scraper's record keeps the `url`
it was initialized with (the input URL). -/
theorem scrape_retail_product_url (r u : String) (f : FetchOutcome) :
    pyGet (scrape_retail_product r u f) "url" = PyVal.str u := by
  cases f with
  | page n p o a =>
      show pyGet (dictInsert (dictInsert (dictInsert (dictInsert _ _ _) _ _) _ _) _ _) "url" = _
      rw [pyGet_dictInsert_of_ne _ _ _ _ (by decide),
        pyGet_dictInsert_of_ne _ _ _ _ (by decide),
        pyGet_dictInsert_of_ne _ _ _ _ (by decide),
        pyGet_dictInsert_of_ne _ _ _ _ (by decide)]
      rfl
  | httpError st m =>
      show pyGet (dictInsert _ _ _) "url" = _
      rw [pyGet_dictInsert_of_ne _ _ _ _ (by decide)]; rfl
  | timeout =>
      show pyGet (dictInsert _ _ _) "url" = _
      rw [pyGet_dictInsert_of_ne _ _ _ _ (by decide)]; rfl
  | exn m =>
      show pyGet (dictInsert _ _ _) "url" = _
      rw [pyGet_dictInsert_of_ne _ _ _ _ (by decide)]; rfl

/-- **C5**: every record that ends up in the per-source result lists after
a run — over all search outcomes and all per-page fetch outcomes — has its
`retailer` field and its `url` field set to a string (never `None`): the
retail scrapers initialize both before any fallible work and never
overwrite them, and the Dockers list stays empty (its adapter call raises
before producing a record). -/
theorem claim_C5_records_have_retailer_and_url
    (url term now : String) (aS jS mS : Option (List String))
    (wa wj wm : String → FetchOutcome) :
    ∀ d ∈ allRecords (run_all_scrapers MasterScraper.init url term now
        (.ok (search_amazon_dockers aS wa))
        (.ok (search_jcpenney_dockers jS wj))
        (.ok (search_macys_dockers mS wm))).results,
      (∃ r, pyGet d "retailer" = PyVal.str r) ∧
      (∃ u, pyGet d "url" = PyVal.str u) := by
  intro d hd
  have hsplit : allRecords (run_all_scrapers MasterScraper.init url term now
      (.ok (search_amazon_dockers aS wa))
      (.ok (search_jcpenney_dockers jS wj))
      (.ok (search_macys_dockers mS wm))).results
      = search_amazon_dockers aS wa ++
        (search_jcpenney_dockers jS wj ++ search_macys_dockers mS wm) := by
    simp [run_all_scrapers, scrape_dockers, scrape_amazon, scrape_jcpenney,
      scrape_macys, MasterScraper.init, allRecords]
  rw [hsplit] at hd
  rcases List.mem_append.mp hd with h | h
  · obtain ⟨l, -, rfl⟩ := List.mem_map.mp h
    exact ⟨⟨"Amazon", scrape_retail_product_retailer _ _ _⟩,
      ⟨l, scrape_retail_product_url _ _ _⟩⟩
  · rcases List.mem_append.mp h with h' | h'
    · obtain ⟨l, -, rfl⟩ := List.mem_map.mp h'
      exact ⟨⟨"JCPenney", scrape_retail_product_retailer _ _ _⟩,
        ⟨l, scrape_retail_product_url _ _ _⟩⟩
    · obtain ⟨l, -, rfl⟩ := List.mem_map.mp h'
      exact ⟨⟨"Macy's", scrape_retail_product_retailer _ _ _⟩,
        ⟨l, scrape_retail_product_url _ _ _⟩⟩

/-- Witness for C5: a concrete run (one Amazon search hit whose page
parses, JCPenney and Macy's timing out per URL) whose emitted record has
string-valued `retailer` and `url`. -/
theorem claim_C5_records_have_retailer_and_url_witness :
    (∃ r, pyGet (scrape_retail_product "Amazon" "https://www.amazon.com/dp/1"
        (.page (some "Dockers Khakis") (some 25) none (some "In Stock")))
      "retailer" = PyVal.str r) ∧
    (∃ u, pyGet (scrape_retail_product "Amazon" "https://www.amazon.com/dp/1"
        (.page (some "Dockers Khakis") (some 25) none (some "In Stock")))
      "url" = PyVal.str u) := by
  exact claim_C5_records_have_retailer_and_url "u" "t" "n"
    (some ["/dp/1"]) (some ["https://j/1"]) none
    (fun _ => .page (some "Dockers Khakis") (some 25) none (some "In Stock"))
    (fun _ => .timeout) (fun _ => .timeout)
    (scrape_retail_product "Amazon" "https://www.amazon.com/dp/1"
      (.page (some "Dockers Khakis") (some 25) none (some "In Stock")))
    (by decide)

/-- Counterexample to **C8** as stated: the Amazon search adapter collects
its candidate links in a plain list with no deduplication, so a URL
appearing twice among the first 3 candidates is fetched twice — "each
distinct URL is fetched at most once" fails. -/
theorem claim_C8_dedup_cex :
    amazon_fetch_links
        (some ["https://www.amazon.com/dp/X", "https://www.amazon.com/dp/X"])
      = ["https://www.amazon.com/dp/X", "https://www.amazon.com/dp/X"] ∧
    (amazon_fetch_links
        (some ["https://www.amazon.com/dp/X", "https://www.amazon.com/dp/X"])).count
      "https://www.amazon.com/dp/X" = 2 := by
  decide

/-- **C8** (amended): all three search adapters fetch at most 3 detail
pages per run.  JCPenney and Macy's deduplicate the candidate links first
(set semantics on URL: the fetched list is duplicate-free and drawn from
the candidates), but Amazon does not — it fetches the first 3 collected
candidate links as-is, so a duplicated URL can be fetched more than once
(see the counterexample); for Amazon "first 3" is the document order of
the collected links, for the set-based adapters the slice is taken from
the set's unspecified iteration order. -/
theorem claim_C8_fanout_amended :
    (∀ search : Option (List String),
      (amazon_fetch_links search).length ≤ 3 ∧
      (∀ u ∈ amazon_fetch_links search,
        ∃ hrefs, search = some hrefs ∧ u ∈ amazon_product_links hrefs) ∧
      (∀ w, search_amazon_dockers search w
        = (amazon_fetch_links search).map
            (fun l => scrape_retail_product "Amazon" l (w l)))) ∧
    (∀ ls : List String, ls.Nodup →
      (jcpenney_fetch_links (some ls)).Nodup ∧
      (jcpenney_fetch_links (some ls)).length ≤ 3 ∧
      (∀ u ∈ jcpenney_fetch_links (some ls), u ∈ ls)) ∧
    (∀ ls : List String, ls.Nodup →
      (macys_fetch_links (some ls)).Nodup ∧
      (macys_fetch_links (some ls)).length ≤ 3 ∧
      (∀ u ∈ macys_fetch_links (some ls), u ∈ ls)) := by
  refine ⟨?_, ?_, ?_⟩
  · intro search
    refine ⟨?_, ?_, fun w => rfl⟩
    · cases search with
      | none => simp [amazon_fetch_links]
      | some hrefs => simp [amazon_fetch_links]
    · intro u hu
      cases search with
      | none => simp [amazon_fetch_links] at hu
      | some hrefs =>
        exact ⟨hrefs, rfl, (List.take_sublist 3 _).subset hu⟩
  · intro ls h
    exact ⟨(List.take_sublist 3 ls).nodup h,
      by simp [jcpenney_fetch_links],
      fun u hu => (List.take_sublist 3 ls).subset hu⟩
  · intro ls h
    exact ⟨(List.take_sublist 3 ls).nodup h,
      by simp [macys_fetch_links],
      fun u hu => (List.take_sublist 3 ls).subset hu⟩

/-- Witness for the amended C8: a concrete 4-candidate deduplicated
enumeration is cut to 3 duplicate-free fetches, and a concrete Amazon
search is capped at 3. -/
theorem claim_C8_fanout_amended_witness :
    (jcpenney_fetch_links (some ["a", "b", "c", "d"])).Nodup ∧
    (jcpenney_fetch_links (some ["a", "b", "c", "d"])).length ≤ 3 ∧
    (amazon_fetch_links (some ["x", "y", "z", "w"])).length ≤ 3 := by
  refine ⟨(claim_C8_fanout_amended.2.1 ["a", "b", "c", "d"] (by decide)).1,
    (claim_C8_fanout_amended.2.1 ["a", "b", "c", "d"] (by decide)).2.1,
    (claim_C8_fanout_amended.1 (some ["x", "y", "z", "w"])).1⟩

/-- Scalar values round-trip. -/
theorem decodePyVal_encodePyVal (v : PyVal) :
    decodePyVal (encodePyVal v) = some v := by
  cases v <;> rfl

/-- Records round-trip field-for-field. -/
theorem decodeRecord_encodeRecord (d : Dict) :
    decodeRecord (encodeRecord d) = some d := by
  induction d with
  | nil => rfl
  | cons p t ih =>
    obtain ⟨k, v⟩ := p
    simp only [encodeRecord, List.map_cons, decodeRecord, List.mapM_cons] at ih ⊢
    rw [decodePyVal_encodePyVal]
    simp only [Option.map_some, Option.pure_def, Option.bind_eq_bind,
      Option.some_bind] at ih ⊢
    rw [ih]
    rfl

/-- Record lists round-trip element-for-element. -/
theorem decodeRecList_encodeRecList (l : List Dict) :
    decodeRecList (encodeRecList l) = some l := by
  induction l with
  | nil => rfl
  | cons d t ih =>
    simp only [encodeRecList, List.map_cons, decodeRecList, List.mapM_cons] at ih ⊢
    rw [decodeRecord_encodeRecord]
    simp only [Option.pure_def, Option.bind_eq_bind, Option.some_bind] at ih ⊢
    rw [ih]
    rfl

/-- **C9**: serializing an aggregate result to the JSON output document and
parsing the document back yields a value field-for-field equal to the
original — every field name, nesting level and value (timestamp, query,
and each per-source record array in order) round-trips losslessly. -/
theorem claim_C9_results_json_roundtrip (r : MasterResults) :
    resultsFromJson (resultsToJson r) = some r := by
  show resultsFromJson (.jobj [("dockers", encodeRecList r.dockers),
    ("amazon", encodeRecList r.amazon), ("jcpenney", encodeRecList r.jcpenney),
    ("macys", encodeRecList r.macys), ("timestamp", encodeOptStr r.timestamp),
    ("search_term", encodeOptStr r.search_term)]) = some r
  rw [resultsFromJson]
  rw [decodeRecList_encodeRecList, decodeRecList_encodeRecList,
    decodeRecList_encodeRecList, decodeRecList_encodeRecList]
  cases r with
  | mk d a j m t q => cases t <;> cases q <;> rfl
